import Mathlib

set_option maxRecDepth 8192

/-!
Verification of the message-normalization core of the `nanograph` repository.

The Python values that flow through the normalizer (strings, ints, dicts with
string keys, and lists) are embedded as the inductive type `PyVal`; Python
exceptions are embedded as `PyErr`, and every fallible operation returns
`Except PyErr _`.

Two source files are embedded:
  * `src/messages.py` — namespace `Lib` (`construct_message`,
    `validate_thread_of_messages`, `format_messages`,
    `add_context_to_messages`, `swap_system_prompt`);
  * `src/nanograph/_utils/messages.py` — namespace `Utils`
    (`determine_if_batch`, `format_messages`).
-/

/-- Embedded Python values: the shapes the normalizer can receive
(strings, integers, dicts with string keys, lists). A Python dict is a
key-ordered association list with unique keys. -/
inductive PyVal where
  | str (s : String)
  | int (n : Int)
  | dict (kvs : List (String × PyVal))
  | list (xs : List PyVal)
deriving Repr

mutual

/-- Structural decidable equality for `PyVal` (the derive handler does not
cover nested inductives). -/
def PyVal.decEq : (a b : PyVal) → Decidable (a = b)
  | .str a, .str b =>
      if h : a = b then .isTrue (by rw [h]) else .isFalse (by simp [h])
  | .int a, .int b =>
      if h : a = b then .isTrue (by rw [h]) else .isFalse (by simp [h])
  | .dict a, .dict b =>
      match PyVal.decEqKvs a b with
      | .isTrue h => .isTrue (by rw [h])
      | .isFalse h => .isFalse (by simp [h])
  | .list a, .list b =>
      match PyVal.decEqList a b with
      | .isTrue h => .isTrue (by rw [h])
      | .isFalse h => .isFalse (by simp [h])
  | .str _, .int _ => .isFalse (fun h => nomatch h)
  | .str _, .dict _ => .isFalse (fun h => nomatch h)
  | .str _, .list _ => .isFalse (fun h => nomatch h)
  | .int _, .str _ => .isFalse (fun h => nomatch h)
  | .int _, .dict _ => .isFalse (fun h => nomatch h)
  | .int _, .list _ => .isFalse (fun h => nomatch h)
  | .dict _, .str _ => .isFalse (fun h => nomatch h)
  | .dict _, .int _ => .isFalse (fun h => nomatch h)
  | .dict _, .list _ => .isFalse (fun h => nomatch h)
  | .list _, .str _ => .isFalse (fun h => nomatch h)
  | .list _, .int _ => .isFalse (fun h => nomatch h)
  | .list _, .dict _ => .isFalse (fun h => nomatch h)

/-- Decidable equality on lists of `PyVal`. -/
def PyVal.decEqList : (a b : List PyVal) → Decidable (a = b)
  | [], [] => .isTrue rfl
  | x :: xs, y :: ys =>
      match PyVal.decEq x y, PyVal.decEqList xs ys with
      | .isTrue h1, .isTrue h2 => .isTrue (by rw [h1, h2])
      | .isFalse h1, _ => .isFalse (by simp [h1])
      | _, .isFalse h2 => .isFalse (by simp [h2])
  | [], _ :: _ => .isFalse (fun h => nomatch h)
  | _ :: _, [] => .isFalse (fun h => nomatch h)

/-- Decidable equality on association lists of `PyVal`. -/
def PyVal.decEqKvs : (a b : List (String × PyVal)) → Decidable (a = b)
  | [], [] => .isTrue rfl
  | (k, v) :: xs, (k', v') :: ys =>
      match String.decEq k k', PyVal.decEq v v', PyVal.decEqKvs xs ys with
      | .isTrue h0, .isTrue h1, .isTrue h2 => .isTrue (by rw [h0, h1, h2])
      | .isFalse h0, _, _ => .isFalse (by simp [h0])
      | _, .isFalse h1, _ => .isFalse (by simp [h1])
      | _, _, .isFalse h2 => .isFalse (by simp [h2])
  | [], _ :: _ => .isFalse (fun h => nomatch h)
  | _ :: _, [] => .isFalse (fun h => nomatch h)

end

instance : DecidableEq PyVal := PyVal.decEq

instance {ε α : Type} [DecidableEq ε] [DecidableEq α] : DecidableEq (Except ε α) := fun x y =>
  match x, y with
  | .ok a, .ok b =>
      if h : a = b then .isTrue (by rw [h]) else .isFalse (by simp [h])
  | .error a, .error b =>
      if h : a = b then .isTrue (by rw [h]) else .isFalse (by simp [h])
  | .ok _, .error _ => .isFalse (fun h => nomatch h)
  | .error _, .ok _ => .isFalse (fun h => nomatch h)

/-- Embedded Python exceptions raised by the normalizer: `ValueError`
(with its message), `IndexError`, `TypeError`, `KeyError`. -/
inductive PyErr where
  | valueError (msg : String)
  | indexError
  | typeError
  | keyError (k : String)
deriving DecidableEq, Repr

/-- `isinstance(v, list)`. -/
def isListV : PyVal → Bool
  | .list _ => true
  | _ => false

/-- `isinstance(v, dict)`. -/
def isDictV : PyVal → Bool
  | .dict _ => true
  | _ => false

/-- First value stored under key `k` in an association list
(Python dicts have unique keys, so the first match is the only one). -/
def dictGet (kvs : List (String × PyVal)) (k : String) : Option PyVal :=
  match kvs with
  | [] => none
  | (k', v) :: rest => if k' = k then some v else dictGet rest k

/-- Python `d[k] = v` on a dict: replaces the value at an existing key in
place (keeping its position), otherwise appends the new key at the end. -/
def dictSet (kvs : List (String × PyVal)) (k : String) (v : PyVal) :
    List (String × PyVal) :=
  match kvs with
  | [] => [(k, v)]
  | (k', v') :: rest => if k' = k then (k, v) :: rest else (k', v') :: dictSet rest k v

/-- Python `k in v` for a string key `k`: substring test on strings, key
membership on dicts, element membership on lists, `TypeError` on ints. -/
def pyContains (k : String) (v : PyVal) : Except PyErr Bool :=
  match v with
  | .str s => .ok (decide (k.toList <:+: s.toList))
  | .dict kvs => .ok (dictGet kvs k).isSome
  | .list xs => .ok (xs.contains (.str k))
  | .int _ => .error .typeError

/-- Python `v[k]` for a string key `k`: dict lookup (raising `KeyError` when
the key is absent); strings, lists and ints reject string subscripts with
`TypeError`. -/
def pyGetItem (v : PyVal) (k : String) : Except PyErr PyVal :=
  match v with
  | .dict kvs =>
      match dictGet kvs k with
      | some x => .ok x
      | none => .error (.keyError k)
  | _ => .error .typeError

/-- Python iteration `for x in v`: characters of a string (as one-character
strings), elements of a list, keys of a dict; ints are not iterable. -/
def pyIter (v : PyVal) : Except PyErr (List PyVal) :=
  match v with
  | .str s => .ok (s.toList.map fun c => .str (String.mk [c]))
  | .list xs => .ok xs
  | .dict kvs => .ok (kvs.map fun kv => .str kv.1)
  | .int _ => .error .typeError

/-- Python truthiness: non-empty strings/lists/dicts and non-zero ints. -/
def pyTruthy : PyVal → Bool
  | .str s => !s.isEmpty
  | .list xs => !xs.isEmpty
  | .dict kvs => !kvs.isEmpty
  | .int n => n != 0

/-- Python `v[0]` (integer subscript 0): first element of a list or the
first character of a string, `IndexError` when empty; dicts raise
`KeyError`, ints `TypeError`. -/
def pySubscriptZero (v : PyVal) : Except PyErr PyVal :=
  match v with
  | .list [] => .error .indexError
  | .list (x :: _) => .ok x
  | .str s =>
      match s.toList with
      | [] => .error .indexError
      | c :: _ => .ok (.str (String.mk [c]))
  | .dict _ => .error (.keyError "0")
  | .int _ => .error .typeError

namespace Lib

/-- Embeds `construct_message` from `src/messages.py`:
`Message(role=role, content=content)`, a role/content record. The Python
parameter `role` defaults to `"user"`; here every call site passes the role
explicitly. -/
def construct_message (content : PyVal) (role : String) : PyVal :=
  .dict [("role", .str role), ("content", content)]

/-- The validation loop of `validate_thread_of_messages`:
`for message in messages: if "role" not in message: raise ValueError(...)`. -/
def validateElems : List PyVal → Except PyErr Unit
  | [] => .ok ()
  | m :: rest =>
      match pyContains "role" m with
      | .error e => .error e
      | .ok b =>
          if b then validateElems rest
          else .error (.valueError "message must have a role")

/-- Embeds `validate_thread_of_messages` from `src/messages.py`: iterates the
sequence, raising on the first element without `"role"`, then returns the
input itself. -/
def validate_thread_of_messages (messages : PyVal) : Except PyErr PyVal :=
  match pyIter messages with
  | .error e => .error e
  | .ok elems =>
      match validateElems elems with
      | .error e => .error e
      | .ok _ => .ok messages

/-- The batch loop of `format_messages` in `src/messages.py`:
`for thread in messages: formatted_threads.append(validate_thread_of_messages(thread))`. -/
def validateThreads : List PyVal → Except PyErr (List PyVal)
  | [] => .ok []
  | t :: rest =>
      match validate_thread_of_messages t with
      | .error e => .error e
      | .ok v =>
          match validateThreads rest with
          | .error e => .error e
          | .ok vs => .ok (v :: vs)

/-- Embeds `format_messages` from `src/messages.py`. A string becomes a
one-element user thread; a non-list is wrapped if `"role" in messages` else
`ValueError`; a list dispatches on `isinstance(messages[0], List)`
(raising `IndexError` on the empty list) between the flat-thread and batch
validation paths. -/
def format_messages (messages : PyVal) : Except PyErr PyVal :=
  match messages with
  | .str s => .ok (.list [construct_message (.str s) "user"])
  | .list [] => .error .indexError
  | .list (x :: xs) =>
      if isListV x then
        match validateThreads (x :: xs) with
        | .error e => .error e
        | .ok ts => .ok (.list ts)
      else
        validate_thread_of_messages (.list (x :: xs))
  | other =>
      match pyContains "role" other with
      | .error e => .error e
      | .ok b =>
          if b then .ok (.list [other])
          else .error (.valueError "messages must be a string, message, or a list of messages")

end Lib

namespace Utils

/-- Embeds `determine_if_batch` from `src/nanograph/_utils/messages.py`:
strings and non-lists are not batches; for a list the answer is
`isinstance(messages[0], List)`, which raises `IndexError` on the empty
list. -/
def determine_if_batch (messages : PyVal) : Except PyErr Bool :=
  match messages with
  | .str _ => .ok false
  | .list [] => .error .indexError
  | .list (x :: _) => .ok (isListV x)
  | _ => .ok false

/-- The element test of `format_messages` in
`src/nanograph/_utils/messages.py`:
`isinstance(message, Dict) and "role" in message`. -/
def isMsgDictB (m : PyVal) : Bool :=
  match m with
  | .dict kvs => (dictGet kvs "role").isSome
  | _ => false

/-- The flat validation loop of `format_messages` in
`src/nanograph/_utils/messages.py`: raises `ValueError` on the first
element that is not a dict carrying `"role"`. -/
def validateDictElems : List PyVal → Except PyErr Unit
  | [] => .ok ()
  | m :: rest =>
      if isMsgDictB m then validateDictElems rest
      else .error (.valueError "Invalid message format")

/-- The batch validation loop of `format_messages` in
`src/nanograph/_utils/messages.py`: iterates every thread and applies the
per-element dict/role test. -/
def validateBatch : List PyVal → Except PyErr Unit
  | [] => .ok ()
  | t :: rest =>
      match pyIter t with
      | .error e => .error e
      | .ok elems =>
          match validateDictElems elems with
          | .error e => .error e
          | .ok _ => validateBatch rest

/-- Embeds `format_messages` from `src/nanograph/_utils/messages.py`. -/
def format_messages (messages : PyVal) : Except PyErr PyVal :=
  match messages with
  | .str s => .ok (.list [.dict [("role", .str "user"), ("content", .str s)]])
  | _ =>
      match determine_if_batch messages with
      | .error e => .error e
      | .ok b =>
          if b then
            match pyIter messages with
            | .error e => .error e
            | .ok ts =>
                match validateBatch ts with
                | .error e => .error e
                | .ok _ => .ok messages
          else
            match messages with
            | .dict kvs =>
                if (dictGet kvs "role").isSome then .ok (.list [messages])
                else .error (.valueError "Invalid messages format")
            | .list xs =>
                match validateDictElems xs with
                | .error e => .error e
                | .ok _ => .ok messages
            | _ => .error (.valueError "Invalid messages format")

end Utils

/-- Boolean view of `msg["role"] == "system"`: true exactly when the
subscript succeeds and yields the string `"system"` (Python `==` never
raises; a failing subscript is not "system"). -/
def isSystemB (m : PyVal) : Bool :=
  match pyGetItem m "role" with
  | .ok r => decide (r = PyVal.str "system")
  | .error _ => false

/-- Boolean view of "`msg["role"]` succeeds". -/
def hasRoleB (m : PyVal) : Bool :=
  match pyGetItem m "role" with
  | .ok _ => true
  | .error _ => false

namespace Lib

/-- Embeds the comprehension
`[i for i, msg in enumerate(msg_list) if msg["role"] == "system"]`
of `swap_system_prompt`: the indices whose message has role `"system"`,
in increasing order; evaluating `msg["role"]` left to right, so the first
message on which the subscript fails decides the raised error. -/
def sysIdx : List PyVal → Except PyErr (List Nat)
  | [] => .ok []
  | m :: rest =>
      match pyGetItem m "role" with
      | .error e => .error e
      | .ok r =>
          match sysIdx rest with
          | .error e => .error e
          | .ok t =>
              if r = PyVal.str "system" then .ok (0 :: t.map (· + 1))
              else .ok (t.map (· + 1))

/-- The deletion loop of `swap_system_prompt`:
`for idx in reversed(system_indices[:-1]): del msg_list[idx]` — deletes the
given positions in the order given (callers pass them highest first, so no
index is invalidated by an earlier deletion). -/
def deleteIdxs (idxs : List Nat) (l : List PyVal) : List PyVal :=
  idxs.foldl (fun acc i => acc.eraseIdx i) l

/-- Embeds `swap_system_prompt` from `src/messages.py`: finds all system
message indices; if any exist, overwrites the last with a fresh system
message carrying `prompt` and deletes the earlier ones (highest index
first); otherwise prepends the fresh system message. -/
def swap_system_prompt (messages : List PyVal) (prompt : String) :
    Except PyErr (List PyVal) :=
  match sysIdx messages with
  | .error e => .error e
  | .ok is =>
      match is.getLast? with
      | some last =>
          .ok (deleteIdxs is.dropLast.reverse
                (messages.set last (construct_message (.str prompt) "system")))
      | none => .ok (construct_message (.str prompt) "system" :: messages)

/-- Embeds the scan of `_add_context_to_sequence` (inside
`add_context_to_messages`):
`for i, msg in enumerate(msg_list): if msg["role"] == "system": system_idx = i`
with accumulator `acc` (initially `none`) and counter `i` (initially 0). -/
def lastSysScan : Nat → Option Nat → List PyVal → Except PyErr (Option Nat)
  | _, acc, [] => .ok acc
  | i, acc, m :: rest =>
      match pyGetItem m "role" with
      | .error e => .error e
      | .ok r =>
          lastSysScan (i + 1) (if r = PyVal.str "system" then some i else acc) rest

/-- Embeds `msg_list[system_idx]["content"] += f"\n\n{context}"` on one
message: reads `content` (KeyError when absent), then applies Python `+=`
with the string `"\n\n" + context`: string concatenation on strings,
element-wise extension on lists (`list += str` extends with the characters),
`TypeError` otherwise; the result is stored back under `content`. -/
def augmentContent (m : PyVal) (context : String) : Except PyErr PyVal :=
  match pyGetItem m "content" with
  | .error e => .error e
  | .ok c =>
      match m, c with
      | .dict kvs, .str s =>
          .ok (.dict (dictSet kvs "content" (.str (s ++ "\n\n" ++ context))))
      | .dict kvs, .list xs =>
          .ok (.dict (dictSet kvs "content"
            (.list (xs ++ ("\n\n" ++ context).toList.map fun ch => .str (String.mk [ch])))))
      | _, _ => .error .typeError

/-- The in-place dict mutation of `_add_context_to_sequence` as seen through
the caller's input: when the input is the list the copy was taken from,
slot `i` now holds the mutated message (the same dict object); other input
shapes are unaffected by the mutation of the copy's element. -/
def writeBack (v : PyVal) (i : Nat) (m : PyVal) : PyVal :=
  match v with
  | .list xs => .list (xs.set i m)
  | other => other

/-- Embeds `_add_context_to_sequence` from `src/messages.py`. Returns the
new list together with the caller-visible value of `msg_sequence` after the
call: the append branch mutates the last system message's dict in place
(visible through the input), while the insert branch only extends the
copy (input untouched). -/
def add_context_to_sequence (msg_sequence : PyVal) (context : String) :
    Except PyErr (List PyVal × PyVal) :=
  match pyIter msg_sequence with
  | .error e => .error e
  | .ok msg_list =>
      match lastSysScan 0 none msg_list with
      | .error e => .error e
      | .ok (some i) =>
          match msg_list.get? i with
          | some m =>
              match augmentContent m context with
              | .error e => .error e
              | .ok m' => .ok (msg_list.set i m', writeBack msg_sequence i m')
          | none => .error .indexError
      | .ok none =>
          .ok (construct_message (.str context) "system" :: msg_list, msg_sequence)

/-- The batch comprehension of `add_context_to_messages`:
`[_add_context_to_sequence(seq) for seq in messages]`. -/
def addCtxThreads : List PyVal → String → Except PyErr (List PyVal)
  | [], _ => .ok []
  | t :: rest, context =>
      match add_context_to_sequence t context with
      | .error e => .error e
      | .ok r =>
          match addCtxThreads rest context with
          | .error e => .error e
          | .ok rs => .ok (.list r.1 :: rs)

/-- Embeds `add_context_to_messages` from `src/messages.py`: empty or
flat input (first element not a list) goes through
`_add_context_to_sequence`; otherwise every thread of the batch does. -/
def add_context_to_messages (messages : PyVal) (context : String) :
    Except PyErr PyVal :=
  if pyTruthy messages = false then
    match add_context_to_sequence messages context with
    | .error e => .error e
    | .ok r => .ok (.list r.1)
  else
    match pySubscriptZero messages with
    | .error e => .error e
    | .ok first =>
        if isListV first = false then
          match add_context_to_sequence messages context with
          | .error e => .error e
          | .ok r => .ok (.list r.1)
        else
          match pyIter messages with
          | .error e => .error e
          | .ok ts =>
              match addCtxThreads ts context with
              | .error e => .error e
              | .ok rs => .ok (.list rs)

/-- The state left in the caller's batch by the comprehension
`[_add_context_to_sequence(seq) for seq in messages]`: threads are
processed left to right and each successful call may mutate its thread's
last system message in place, so when a later thread raises, the threads
already processed keep their mutation while the failing thread and the
rest are unchanged. The first component is the call's outcome, the second
the post-call contents of the input batch. -/
def addCtxBatchState : List PyVal → String → Except PyErr Unit × List PyVal
  | [], _ => (.ok (), [])
  | t :: rest, context =>
      match add_context_to_sequence t context with
      | .error e => (.error e, t :: rest)
      | .ok r =>
          let (out, st) := addCtxBatchState rest context
          (out, r.2 :: st)

end Lib

/-- Spec-side predicate transcribing the claims' notion of a valid Thread:
a Python list whose elements are all dicts carrying `"role"`. -/
def isValidThreadB (t : PyVal) : Bool :=
  match t with
  | .list xs => xs.all Utils.isMsgDictB
  | _ => false

/-- Boolean view of "the message's `content` entry exists and is a
string". -/
def hasStrContentB (m : PyVal) : Bool :=
  match pyGetItem m "content" with
  | .ok (.str _) => true
  | _ => false

/-- Spec-side description of the index of the last (highest-index) system
message of a thread, used to state the context-append claim. -/
def lastSysSpec : List PyVal → Option Nat
  | [] => none
  | m :: rest =>
      match lastSysSpec rest with
      | some j => some (j + 1)
      | none => if isSystemB m then some 0 else none

/-- Spec-side view of one message after its `content` entry is replaced by
the string `c`. -/
def withContent (m : PyVal) (c : String) : PyVal :=
  match m with
  | .dict kvs => .dict (dictSet kvs "content" (.str c))
  | other => other

/-- The caller-visible value of a thread after `_add_context_to_sequence`
has been attempted on it: its post-call view on success, itself on error. -/
def postThreadView (ctx : String) (t : PyVal) : PyVal :=
  match Lib.add_context_to_sequence t ctx with
  | .ok r => r.2
  | .error _ => t

/-- Index of the first thread of a batch on which
`_add_context_to_sequence` raises (the batch length when none does). -/
def firstFail (ts : List PyVal) (ctx : String) : Nat :=
  match ts with
  | [] => 0
  | t :: rest =>
      match Lib.add_context_to_sequence t ctx with
      | .error _ => 0
      | .ok _ => firstFail rest ctx + 1

namespace Lib

theorem deleteIdxs_nil (l : List PyVal) : deleteIdxs [] l = l := rfl

theorem deleteIdxs_cons (i : Nat) (is : List Nat) (l : List PyVal) :
    deleteIdxs (i :: is) l = deleteIdxs is (l.eraseIdx i) := rfl

theorem deleteIdxs_append (a b : List Nat) (l : List PyVal) :
    deleteIdxs (a ++ b) l = deleteIdxs b (deleteIdxs a l) := by
  simp [deleteIdxs]

theorem deleteIdxs_map_succ (js : List Nat) (m : PyVal) (l : List PyVal) :
    deleteIdxs (js.map (· + 1)) (m :: l) = m :: deleteIdxs js l := by
  induction js generalizing l with
  | nil => rfl
  | cons j js ih =>
      have he : (m :: l).eraseIdx (j + 1) = m :: l.eraseIdx j := rfl
      simp only [List.map_cons, deleteIdxs_cons, he]
      exact ih _

theorem isSystemB_true_of {m : PyVal}
    (h : pyGetItem m "role" = .ok (.str "system")) : isSystemB m = true := by
  simp [isSystemB, h]

theorem isSystemB_false_of {m : PyVal} {r : PyVal}
    (h : pyGetItem m "role" = .ok r) (hr : r ≠ .str "system") :
    isSystemB m = false := by
  simp [isSystemB, h, hr]

theorem hasRoleB_true_of {m : PyVal} {r : PyVal}
    (h : pyGetItem m "role" = .ok r) : hasRoleB m = true := by
  simp [hasRoleB, h]

/-- Inversion for `sysIdx` on a cons cell. -/
theorem sysIdx_cons_ok {m : PyVal} {rest : List PyVal} {is : List Nat}
    (h : sysIdx (m :: rest) = .ok is) :
    ∃ r t, pyGetItem m "role" = .ok r ∧ sysIdx rest = .ok t ∧
      ((r = PyVal.str "system" ∧ is = 0 :: t.map (· + 1)) ∨
       (r ≠ PyVal.str "system" ∧ is = t.map (· + 1))) := by
  cases hr : pyGetItem m "role" with
  | error e => simp [sysIdx, hr] at h
  | ok r =>
      cases ht : sysIdx rest with
      | error e => simp [sysIdx, hr, ht] at h
      | ok t =>
          refine ⟨r, t, rfl, rfl, ?_⟩
          by_cases hs : r = PyVal.str "system"
          · simp only [sysIdx, hr, ht, hs, if_pos, Except.ok.injEq] at h
            exact Or.inl ⟨hs, h.symm⟩
          · simp only [sysIdx, hr, ht, hs, if_neg, Except.ok.injEq, if_false] at h
            exact Or.inr ⟨hs, h.symm⟩

/-- When `sysIdx` returns the empty index list, no message is a system
message. -/
theorem sysIdx_nil_nosys : ∀ {msgs : List PyVal}, sysIdx msgs = .ok [] →
    msgs.all (fun x => !isSystemB x) = true := by
  intro msgs
  induction msgs with
  | nil => intro _; rfl
  | cons m rest ih =>
      intro h
      obtain ⟨r, t, hr, ht, hcase⟩ := sysIdx_cons_ok h
      rcases hcase with ⟨_, habs⟩ | ⟨hne, hmap⟩
      · exact absurd habs.symm (List.cons_ne_nil _ _)
      · have ht0 : t = [] := by
          cases t with
          | nil => rfl
          | cons a t' => simp at hmap
        subst ht0
        simp only [List.all_cons, Bool.and_eq_true]
        exact ⟨by simp [isSystemB_false_of hr hne], ih ht⟩

/-- Every message scanned successfully by `sysIdx` has a readable role. -/
theorem roles_of_sysIdx_ok : ∀ {msgs : List PyVal} {is : List Nat},
    sysIdx msgs = .ok is → msgs.all hasRoleB = true := by
  intro msgs
  induction msgs with
  | nil => intro _ _; rfl
  | cons m rest ih =>
      intro is h
      obtain ⟨r, t, hr, ht, _⟩ := sysIdx_cons_ok h
      simp only [List.all_cons, Bool.and_eq_true]
      exact ⟨hasRoleB_true_of hr, ih ht⟩

/-- When every message has a readable role, `sysIdx` succeeds. -/
theorem sysIdx_ok_of_roles : ∀ {msgs : List PyVal},
    msgs.all hasRoleB = true → ∃ is, sysIdx msgs = .ok is := by
  intro msgs
  induction msgs with
  | nil => intro _; exact ⟨[], rfl⟩
  | cons m rest ih =>
      intro h
      simp only [List.all_cons, Bool.and_eq_true] at h
      obtain ⟨is', ht⟩ := ih h.2
      have hr : ∃ r, pyGetItem m "role" = .ok r := by
        unfold hasRoleB at *
        cases hg : pyGetItem m "role" with
        | ok r => exact ⟨r, rfl⟩
        | error e => rw [hg] at h; simp at h
      obtain ⟨r, hr⟩ := hr
      by_cases hs : r = PyVal.str "system"
      · exact ⟨0 :: is'.map (· + 1), by simp [sysIdx, hr, ht, hs]⟩
      · exact ⟨is'.map (· + 1), by simp [sysIdx, hr, ht, hs]⟩

/-- Members of the `sysIdx` result are exactly the positions holding a
system message. -/
theorem sysIdx_mem : ∀ {msgs : List PyVal} {is : List Nat},
    sysIdx msgs = .ok is → ∀ j, j ∈ is ↔
      (j < msgs.length ∧ isSystemB (msgs.getD j (.int 0)) = true) := by
  intro msgs
  induction msgs with
  | nil =>
      intro is h j
      have : is = [] := by simpa [sysIdx] using h.symm
      subst this
      simp
  | cons m rest ih =>
      intro is h j
      obtain ⟨r, t, hr, ht, hcase⟩ := sysIdx_cons_ok h
      rcases hcase with ⟨hsys, his⟩ | ⟨hne, his⟩ <;> subst his
      · cases j with
        | zero =>
            simp [List.getD_cons_zero, isSystemB_true_of (hsys ▸ hr)]
        | succ j' =>
            have := ih ht j'
            simp only [List.mem_cons, List.mem_map]
            constructor
            · rintro (habs | ⟨a, ha, haeq⟩)
              · exact absurd habs (by simp)
              · have haj : a = j' := by omega
                subst haj
                have := (ih ht a).mp ha
                exact ⟨by simpa using Nat.succ_lt_succ this.1, by simpa using this.2⟩
            · rintro ⟨hlt, hsysj⟩
              refine Or.inr ⟨j', ?_, rfl⟩
              exact (ih ht j').mpr ⟨Nat.lt_of_succ_lt_succ (by simpa using hlt), by simpa using hsysj⟩
      · cases j with
        | zero =>
            simp only [List.mem_map]
            constructor
            · rintro ⟨a, _, habs⟩; exact absurd habs (by simp)
            · rintro ⟨_, hsysj⟩
              rw [List.getD_cons_zero] at hsysj
              exact absurd hsysj (by simp [isSystemB_false_of hr hne])
        | succ j' =>
            simp only [List.mem_map]
            constructor
            · rintro ⟨a, ha, haeq⟩
              have haj : a = j' := by omega
              subst haj
              have := (ih ht a).mp ha
              exact ⟨by simpa using Nat.succ_lt_succ this.1, by simpa using this.2⟩
            · rintro ⟨hlt, hsysj⟩
              refine ⟨j', ?_, rfl⟩
              exact (ih ht j').mpr ⟨Nat.lt_of_succ_lt_succ (by simpa using hlt), by simpa using hsysj⟩

/-- Core characterization of the replace-then-delete phase of
`swap_system_prompt`: when the system indices are `L.concat k`, overwriting
position `k` with `v` and deleting the positions of `L` (highest first)
keeps the non-system prefix messages, places `v` where the last system
message was, and keeps the suffix unchanged — and that suffix holds no
system message. -/
theorem deleteIdxs_sys (v : PyVal) :
    ∀ (msgs : List PyVal) (L : List Nat) (k : Nat),
      sysIdx msgs = .ok (L.concat k) →
      deleteIdxs L.reverse (msgs.set k v)
        = (msgs.take k).filter (fun x => !isSystemB x) ++ v :: msgs.drop (k + 1)
      ∧ (msgs.drop (k + 1)).all (fun x => !isSystemB x) = true := by
  intro msgs
  induction msgs with
  | nil =>
      intro L k h
      simp [sysIdx, List.concat_eq_append] at h
  | cons m rest ih =>
      intro L k h
      obtain ⟨r, t, hr, ht, hcase⟩ := sysIdx_cons_ok h
      rcases hcase with ⟨hsys, his⟩ | ⟨hne, his⟩
      · subst hsys
        have hsysm : isSystemB m = true := isSystemB_true_of hr
        rcases t.eq_nil_or_concat with ht0 | ⟨T, k', hT⟩
        · subst ht0
          have hLk : L = [] ∧ k = 0 := by
            have h01 : L.concat k = [].concat 0 := by simpa using his
            simpa using List.concat_inj.mp h01
          obtain ⟨hL, hk⟩ := hLk
          subst hL; subst hk
          constructor
          · simp [deleteIdxs]
          · simpa using sysIdx_nil_nosys ht
        · subst hT
          have hconc : L.concat k = (0 :: T.map (· + 1)).concat (k' + 1) := by
            simpa using his
          obtain ⟨hL, hk⟩ := List.concat_inj.mp hconc
          subst hL; subst hk
          obtain ⟨ih1, ih2⟩ := ih T k' ht
          constructor
          · have hset : (m :: rest).set (k' + 1) v = m :: rest.set k' v := rfl
            have hrev : (0 :: T.map (· + 1)).reverse
                = (T.reverse.map (· + 1)) ++ [0] := by simp
            rw [hset, hrev, deleteIdxs_append, deleteIdxs_map_succ,
              deleteIdxs_cons]
            have : (m :: deleteIdxs T.reverse (rest.set k' v)).eraseIdx 0
                = deleteIdxs T.reverse (rest.set k' v) := rfl
            rw [this, deleteIdxs_nil, ih1]
            have htake : (m :: rest).take (k' + 1) = m :: rest.take k' := rfl
            have hdrop : (m :: rest).drop (k' + 1 + 1) = rest.drop (k' + 1) := rfl
            rw [htake, hdrop, List.filter_cons]
            simp [hsysm]
          · simpa using ih2
      · have hnsysm : isSystemB m = false := isSystemB_false_of hr hne
        rcases t.eq_nil_or_concat with ht0 | ⟨T, k', hT⟩
        · exfalso
          subst ht0
          simp [List.concat_eq_append] at his
        · subst hT
          have hconc : L.concat k = (T.map (· + 1)).concat (k' + 1) := by
            simpa using his
          obtain ⟨hL, hk⟩ := List.concat_inj.mp hconc
          subst hL; subst hk
          obtain ⟨ih1, ih2⟩ := ih T k' ht
          constructor
          · have hset : (m :: rest).set (k' + 1) v = m :: rest.set k' v := rfl
            have hrev : (T.map (· + 1)).reverse = T.reverse.map (· + 1) := by simp
            rw [hset, hrev, deleteIdxs_map_succ, ih1]
            have htake : (m :: rest).take (k' + 1) = m :: rest.take k' := rfl
            have hdrop : (m :: rest).drop (k' + 1 + 1) = rest.drop (k' + 1) := rfl
            rw [htake, hdrop, List.filter_cons]
            simp [hnsysm]
          · simpa using ih2

/-- `swap_system_prompt` when no system message exists: the fresh system
message is prepended. -/
theorem swap_eq_nosys {msgs : List PyVal} {p : String}
    (h : sysIdx msgs = .ok []) :
    swap_system_prompt msgs p
      = .ok (construct_message (.str p) "system" :: msgs) := by
  simp [swap_system_prompt, h]

/-- `swap_system_prompt` when the system indices are `L.concat k`. -/
theorem swap_eq_sys {msgs : List PyVal} {L : List Nat} {k : Nat} (p : String)
    (h : sysIdx msgs = .ok (L.concat k)) :
    swap_system_prompt msgs p
      = .ok ((msgs.take k).filter (fun x => !isSystemB x)
          ++ construct_message (.str p) "system" :: msgs.drop (k + 1)) := by
  have hd := deleteIdxs_sys (construct_message (.str p) "system") msgs L k h
  simp only [swap_system_prompt, h, List.concat_eq_append, List.getLast?_append,
    List.getLast?_singleton, Option.or_some, List.dropLast_concat]
  rw [hd.1]

theorem exists_role_of_hasRoleB {m : PyVal} (h : hasRoleB m = true) :
    ∃ r, pyGetItem m "role" = .ok r := by
  unfold hasRoleB at h
  cases hg : pyGetItem m "role" with
  | ok r => exact ⟨r, rfl⟩
  | error e => rw [hg] at h; simp at h

theorem ne_system_of_not_isSystemB {m r : PyVal}
    (hg : pyGetItem m "role" = .ok r) (h : isSystemB m = false) :
    r ≠ .str "system" := by
  intro hr
  subst hr
  rw [isSystemB_true_of hg] at h
  exact absurd h (by simp)

/-- A run of messages that all carry a role and are all non-system
contributes no system index. -/
theorem sysIdx_all_nonsys : ∀ {l : List PyVal},
    l.all (fun x => hasRoleB x && !isSystemB x) = true → sysIdx l = .ok [] := by
  intro l
  induction l with
  | nil => intro _; rfl
  | cons m rest ih =>
      intro h
      simp only [List.all_cons, Bool.and_eq_true] at h
      obtain ⟨⟨hrole, hnsys⟩, hrest⟩ := h
      obtain ⟨r, hg⟩ := exists_role_of_hasRoleB hrole
      have hne : r ≠ .str "system" :=
        ne_system_of_not_isSystemB hg (by simpa using hnsys)
      simp [sysIdx, hg, ih hrest, hne]

/-- The system indices of `A ++ s :: B` with non-system `A` and `B` and
system `s` are exactly `[A.length]`. -/
theorem sysIdx_append_single :
    ∀ (A : List PyVal) (s : PyVal) (B : List PyVal),
      A.all (fun x => hasRoleB x && !isSystemB x) = true →
      B.all (fun x => hasRoleB x && !isSystemB x) = true →
      pyGetItem s "role" = .ok (.str "system") →
      sysIdx (A ++ s :: B) = .ok [A.length] := by
  intro A
  induction A with
  | nil =>
      intro s B _ hB hs
      simp [sysIdx, hs, sysIdx_all_nonsys hB]
  | cons a A' ih =>
      intro s B hA hB hs
      simp only [List.all_cons, Bool.and_eq_true] at hA
      obtain ⟨⟨hrole, hnsys⟩, hA'⟩ := hA
      obtain ⟨r, hg⟩ := exists_role_of_hasRoleB hrole
      have hne : r ≠ .str "system" :=
        ne_system_of_not_isSystemB hg (by simpa using hnsys)
      have := ih s B hA' hB hs
      simp [sysIdx, hg, List.cons_append, this, hne, List.length_cons]

theorem set_append_cons (A : List PyVal) (x y : PyVal) (B : List PyVal) :
    (A ++ x :: B).set A.length y = A ++ y :: B := by
  rw [List.set_append_right _ _ (Nat.le_refl _)]
  simp

/-- The freshly constructed system message is a system message with a
readable role. -/
theorem construct_system_isSystem (p : String) :
    pyGetItem (construct_message (.str p) "system") "role"
      = .ok (.str "system") := by
  simp [construct_message, pyGetItem, dictGet]

theorem all_roles_nonsys_of_filter {msgs : List PyVal} (k : Nat)
    (hroles : msgs.all hasRoleB = true) :
    ((msgs.take k).filter (fun x => !isSystemB x)).all
      (fun x => hasRoleB x && !isSystemB x) = true := by
  rw [List.all_eq_true]
  intro x hx
  have hmem : x ∈ msgs.take k := List.mem_of_mem_filter hx
  have hmsgs : x ∈ msgs := List.take_subset _ _ hmem
  have h1 : hasRoleB x = true := List.all_eq_true.mp hroles x hmsgs
  have h2 := List.of_mem_filter hx
  simp only [Bool.not_eq_true'] at h2
  simp [h1, h2]

theorem all_roles_nonsys_of_drop {msgs : List PyVal} {k : Nat}
    (hroles : msgs.all hasRoleB = true)
    (hdrop : (msgs.drop (k + 1)).all (fun x => !isSystemB x) = true) :
    (msgs.drop (k + 1)).all (fun x => hasRoleB x && !isSystemB x) = true := by
  rw [List.all_eq_true] at *
  intro x hx
  have h1 := hroles x (List.drop_subset _ _ hx)
  have h2 := hdrop x hx
  simp [h1, h2]

/-- Applying `swap_system_prompt` to one of its own successful results,
with the same prompt, returns that result unchanged. -/
theorem swap_fix {msgs res : List PyVal} {p : String}
    (h : swap_system_prompt msgs p = .ok res) :
    swap_system_prompt res p = .ok res := by
  cases hsi : sysIdx msgs with
  | error e => simp [swap_system_prompt, hsi] at h
  | ok is =>
      have hroles := roles_of_sysIdx_ok hsi
      rcases is.eq_nil_or_concat with rfl | ⟨L, k, rfl⟩
      · have heq := swap_eq_nosys (p := p) hsi
        rw [heq] at h
        have hres : res = construct_message (.str p) "system" :: msgs := by
          simpa using h.symm
        subst hres
        have hB : msgs.all (fun x => hasRoleB x && !isSystemB x) = true := by
          have hnosys := sysIdx_nil_nosys hsi
          rw [List.all_eq_true] at *
          intro x hx
          simp [hroles x hx, hnosys x hx]
        have hs := sysIdx_append_single [] (construct_message (.str p) "system")
          msgs rfl hB (construct_system_isSystem p)
        simp only [List.nil_append] at hs
        simp [swap_system_prompt, hs, deleteIdxs]
      · have heq := swap_eq_sys p hsi
        rw [heq] at h
        have hres : res = (msgs.take k).filter (fun x => !isSystemB x)
            ++ construct_message (.str p) "system" :: msgs.drop (k + 1) := by
          simpa using h.symm
        subst hres
        have hd := deleteIdxs_sys (construct_message (.str p) "system") msgs L k hsi
        have hA := all_roles_nonsys_of_filter k hroles
        have hB := all_roles_nonsys_of_drop hroles hd.2
        have hs := sysIdx_append_single _ (construct_message (.str p) "system")
          _ hA hB (construct_system_isSystem p)
        simp [swap_system_prompt, hs, deleteIdxs, set_append_cons]

theorem filter_skip_sys {A B : List PyVal} {s : PyVal}
    (hAf : ∀ x ∈ A, (!isSystemB x) = true)
    (hBf : ∀ x ∈ B, (!isSystemB x) = true)
    (hs : isSystemB s = true) :
    (A ++ s :: B).filter (fun x => !isSystemB x) = A ++ B := by
  rw [List.filter_append, List.filter_cons]
  simp [hs, List.filter_eq_self.mpr hAf, List.filter_eq_self.mpr hBf]

theorem countP_one_sys {A B : List PyVal} {s : PyVal}
    (hAf : ∀ x ∈ A, (!isSystemB x) = true)
    (hBf : ∀ x ∈ B, (!isSystemB x) = true)
    (hs : isSystemB s = true) :
    (A ++ s :: B).countP isSystemB = 1 := by
  rw [List.countP_append, List.countP_cons_of_pos _ _ hs]
  have hA0 : A.countP isSystemB = 0 :=
    List.countP_eq_zero.mpr (fun a ha => by simpa using hAf a ha)
  have hB0 : B.countP isSystemB = 0 :=
    List.countP_eq_zero.mpr (fun a ha => by simpa using hBf a ha)
  omega

theorem nonsys_of_mem_filter {l : List PyVal} {x : PyVal}
    (hx : x ∈ l.filter (fun y => !isSystemB y)) : (!isSystemB x) = true := by
  have h := List.of_mem_filter hx
  exact h

theorem filter_decomp {msgs : List PyVal} {k : Nat}
    (hk : k < msgs.length)
    (hsysk : isSystemB (msgs.getD k (.int 0)) = true)
    (hdrop : (msgs.drop (k + 1)).all (fun x => !isSystemB x) = true) :
    msgs.filter (fun x => !isSystemB x)
      = (msgs.take k).filter (fun x => !isSystemB x) ++ msgs.drop (k + 1) := by
  conv_lhs => rw [← List.take_append_drop k msgs]
  rw [List.filter_append, List.drop_eq_getElem_cons hk, List.filter_cons]
  have hbridge : msgs[k] = msgs.getD k (.int 0) := by
    rw [List.getD_eq_getElem _ _ hk]
  rw [hbridge]
  simp only [hsysk, Bool.not_true, cond_false]
  congr 1
  exact List.filter_eq_self.mpr (fun a ha => List.all_eq_true.mp hdrop a ha)

end Lib

/-- C1: for every thread whose messages all have a readable role,
`swap_system_prompt(messages, prompt)` succeeds; when at least one system
message exists the result holds exactly one system message — the freshly
constructed one, placed where the last (highest-index) system message was,
all other system messages removed and all non-system messages kept in
order — and when none exists the fresh system message is inserted at
index 0 with the rest of the thread preserved. -/
theorem swap_system_prompt_full_replacement (msgs : List PyVal) (p : String)
    (h : msgs.all hasRoleB = true) :
    ∃ res, Lib.swap_system_prompt msgs p = .ok res ∧
      (msgs.any isSystemB = true →
        res.countP isSystemB = 1 ∧
        Lib.construct_message (.str p) "system" ∈ res ∧
        res.filter (fun x => !isSystemB x)
          = msgs.filter (fun x => !isSystemB x)) ∧
      (msgs.any isSystemB = false →
        res = Lib.construct_message (.str p) "system" :: msgs) ∧
      (∀ (L : List Nat) (k : Nat), Lib.sysIdx msgs = .ok (L.concat k) →
        res = (msgs.take k).filter (fun x => !isSystemB x)
          ++ Lib.construct_message (.str p) "system" :: msgs.drop (k + 1)) := by
  obtain ⟨is, hsi⟩ := Lib.sysIdx_ok_of_roles h
  rcases is.eq_nil_or_concat with rfl | ⟨L, k, rfl⟩
  · refine ⟨_, Lib.swap_eq_nosys hsi, ?_, fun _ => rfl, ?_⟩
    · intro hany
      exfalso
      obtain ⟨x, hx, hsx⟩ := List.any_eq_true.mp hany
      have := List.all_eq_true.mp (Lib.sysIdx_nil_nosys hsi) x hx
      simp [hsx] at this
    · intro L k hsi'
      rw [hsi] at hsi'
      simp [List.concat_eq_append] at hsi'
  · have hkmem : k ∈ L.concat k := by simp [List.concat_eq_append]
    obtain ⟨hklt, hksys⟩ := (Lib.sysIdx_mem hsi k).mp hkmem
    have hd := Lib.deleteIdxs_sys (Lib.construct_message (.str p) "system")
      msgs L k hsi
    have hAf : ∀ x ∈ (msgs.take k).filter (fun x => !isSystemB x),
        (!isSystemB x) = true := fun _ hx => Lib.nonsys_of_mem_filter hx
    have hBf : ∀ x ∈ msgs.drop (k + 1), (!isSystemB x) = true :=
      List.all_eq_true.mp hd.2
    have hsnew : isSystemB (Lib.construct_message (.str p) "system") = true :=
      Lib.isSystemB_true_of (Lib.construct_system_isSystem p)
    refine ⟨_, Lib.swap_eq_sys p hsi, ?_, ?_, ?_⟩
    · intro _
      refine ⟨Lib.countP_one_sys hAf hBf hsnew, by simp, ?_⟩
      rw [Lib.filter_skip_sys hAf hBf hsnew, Lib.filter_decomp hklt hksys hd.2]
    · intro hany
      exfalso
      have hmem : msgs.getD k (.int 0) ∈ msgs := by
        rw [List.getD_eq_getElem _ _ hklt]
        exact List.getElem_mem hklt
      have := List.any_eq_false.mp hany _ hmem
      exact this hksys
    · intro L' k' hsi'
      rw [hsi] at hsi'
      have hLL : L.concat k = L'.concat k' := by simpa using hsi'
      obtain ⟨rfl, rfl⟩ := List.concat_inj.mp hLL
      rfl

/-- Witness for C1 at the concrete thread
`[user "hi", system "a", system "b", user "bye"]` with prompt `"P"`. -/
theorem swap_system_prompt_full_replacement_witness :
    ([Lib.construct_message (.str "hi") "user",
      Lib.construct_message (.str "a") "system",
      Lib.construct_message (.str "b") "system",
      Lib.construct_message (.str "bye") "user"].all hasRoleB = true) ∧
    (∃ res, Lib.swap_system_prompt
        [Lib.construct_message (.str "hi") "user",
         Lib.construct_message (.str "a") "system",
         Lib.construct_message (.str "b") "system",
         Lib.construct_message (.str "bye") "user"] "P" = .ok res ∧
      ([Lib.construct_message (.str "hi") "user",
        Lib.construct_message (.str "a") "system",
        Lib.construct_message (.str "b") "system",
        Lib.construct_message (.str "bye") "user"].any isSystemB = true →
        res.countP isSystemB = 1 ∧
        Lib.construct_message (.str "P") "system" ∈ res ∧
        res.filter (fun x => !isSystemB x)
          = [Lib.construct_message (.str "hi") "user",
             Lib.construct_message (.str "a") "system",
             Lib.construct_message (.str "b") "system",
             Lib.construct_message (.str "bye") "user"].filter
                (fun x => !isSystemB x)) ∧
      ([Lib.construct_message (.str "hi") "user",
        Lib.construct_message (.str "a") "system",
        Lib.construct_message (.str "b") "system",
        Lib.construct_message (.str "bye") "user"].any isSystemB = false →
        res = Lib.construct_message (.str "P") "system"
          :: [Lib.construct_message (.str "hi") "user",
              Lib.construct_message (.str "a") "system",
              Lib.construct_message (.str "b") "system",
              Lib.construct_message (.str "bye") "user"]) ∧
      (∀ (L : List Nat) (k : Nat), Lib.sysIdx
          [Lib.construct_message (.str "hi") "user",
           Lib.construct_message (.str "a") "system",
           Lib.construct_message (.str "b") "system",
           Lib.construct_message (.str "bye") "user"] = .ok (L.concat k) →
        res = ([Lib.construct_message (.str "hi") "user",
                Lib.construct_message (.str "a") "system",
                Lib.construct_message (.str "b") "system",
                Lib.construct_message (.str "bye") "user"].take k).filter
                  (fun x => !isSystemB x)
          ++ Lib.construct_message (.str "P") "system"
            :: [Lib.construct_message (.str "hi") "user",
                Lib.construct_message (.str "a") "system",
                Lib.construct_message (.str "b") "system",
                Lib.construct_message (.str "bye") "user"].drop (k + 1))) :=
  ⟨by decide, swap_system_prompt_full_replacement _ "P" (by decide)⟩

/-- C6: `swap_system_prompt` is idempotent in its prompt: swapping the
result of a swap with the same prompt returns the same result (errors
propagate unchanged through the composition). -/
theorem swap_system_prompt_idempotent (msgs : List PyVal) (p : String) :
    (Lib.swap_system_prompt msgs p).bind (fun r => Lib.swap_system_prompt r p)
      = Lib.swap_system_prompt msgs p := by
  cases h : Lib.swap_system_prompt msgs p with
  | error e => rfl
  | ok res =>
      show Lib.swap_system_prompt res p = .ok res
      exact Lib.swap_fix h

/-- C10: every successful `swap_system_prompt` keeps the non-system
messages of the input unchanged and in their original relative order
(`swap_system_prompt` never writes into a message record: it builds its
result from a copy of the list). -/
theorem swap_system_prompt_preserves_non_system (msgs : List PyVal)
    (p : String) (res : List PyVal)
    (h : Lib.swap_system_prompt msgs p = .ok res) :
    res.filter (fun x => !isSystemB x)
      = msgs.filter (fun x => !isSystemB x) := by
  cases hsi : Lib.sysIdx msgs with
  | error e => simp [Lib.swap_system_prompt, hsi] at h
  | ok is =>
      rcases is.eq_nil_or_concat with rfl | ⟨L, k, rfl⟩
      · rw [Lib.swap_eq_nosys hsi] at h
        have hres : res = Lib.construct_message (.str p) "system" :: msgs := by
          simpa using h.symm
        subst hres
        rw [List.filter_cons]
        have hsnew : isSystemB (Lib.construct_message (.str p) "system") = true :=
          Lib.isSystemB_true_of (Lib.construct_system_isSystem p)
        simp [hsnew]
      · rw [Lib.swap_eq_sys p hsi] at h
        have hres : res = (msgs.take k).filter (fun x => !isSystemB x)
            ++ Lib.construct_message (.str p) "system" :: msgs.drop (k + 1) := by
          simpa using h.symm
        subst hres
        have hkmem : k ∈ L.concat k := by simp [List.concat_eq_append]
        obtain ⟨hklt, hksys⟩ := (Lib.sysIdx_mem hsi k).mp hkmem
        have hd := Lib.deleteIdxs_sys (Lib.construct_message (.str p) "system")
          msgs L k hsi
        have hAf : ∀ x ∈ (msgs.take k).filter (fun x => !isSystemB x),
            (!isSystemB x) = true := fun _ hx => Lib.nonsys_of_mem_filter hx
        have hBf : ∀ x ∈ msgs.drop (k + 1), (!isSystemB x) = true :=
          List.all_eq_true.mp hd.2
        have hsnew : isSystemB (Lib.construct_message (.str p) "system") = true :=
          Lib.isSystemB_true_of (Lib.construct_system_isSystem p)
        rw [Lib.filter_skip_sys hAf hBf hsnew, Lib.filter_decomp hklt hksys hd.2]

/-- Witness for C10 at the concrete thread `[system "a", user "hi"]` with
prompt `"P"`. -/
theorem swap_system_prompt_preserves_non_system_witness :
    (Lib.swap_system_prompt
      [Lib.construct_message (.str "a") "system",
       Lib.construct_message (.str "hi") "user"] "P"
      = .ok [Lib.construct_message (.str "P") "system",
             Lib.construct_message (.str "hi") "user"]) ∧
    ([Lib.construct_message (.str "P") "system",
      Lib.construct_message (.str "hi") "user"].filter (fun x => !isSystemB x)
      = [Lib.construct_message (.str "a") "system",
         Lib.construct_message (.str "hi") "user"].filter
           (fun x => !isSystemB x)) :=
  ⟨by decide, swap_system_prompt_preserves_non_system _ "P" _ (by decide)⟩

namespace Utils

theorem isMsgDictB_props {m : PyVal} (h : Utils.isMsgDictB m = true) :
    isListV m = false ∧ hasRoleB m = true ∧ ∃ kvs, m = PyVal.dict kvs := by
  cases m with
  | dict kvs =>
      simp only [Utils.isMsgDictB] at h
      refine ⟨rfl, ?_, kvs, rfl⟩
      cases hg : dictGet kvs "role" with
      | none => rw [hg] at h; simp at h
      | some r => simp [hasRoleB, pyGetItem, hg]
  | str s => simp [Utils.isMsgDictB] at h
  | int n => simp [Utils.isMsgDictB] at h
  | list xs => simp [Utils.isMsgDictB] at h

theorem validateDictElems_ok_of_all : ∀ {xs : List PyVal},
    xs.all Utils.isMsgDictB = true → Utils.validateDictElems xs = .ok () := by
  intro xs
  induction xs with
  | nil => intro _; rfl
  | cons m rest ih =>
      intro h
      simp only [List.all_cons, Bool.and_eq_true] at h
      simp [Utils.validateDictElems, h.1, ih h.2]

theorem validateBatch_ok_of_all : ∀ {ts : List PyVal},
    ts.all isValidThreadB = true → Utils.validateBatch ts = .ok () := by
  intro ts
  induction ts with
  | nil => intro _; rfl
  | cons t rest ih =>
      intro h
      simp only [List.all_cons, Bool.and_eq_true] at h
      obtain ⟨ht, hrest⟩ := h
      cases t with
      | list xs =>
          have hxs : xs.all Utils.isMsgDictB = true := by
            simpa [isValidThreadB] using ht
          simp [Utils.validateBatch, pyIter, validateDictElems_ok_of_all hxs,
            ih hrest]
      | str s => simp [isValidThreadB] at ht
      | int n => simp [isValidThreadB] at ht
      | dict kvs => simp [isValidThreadB] at ht

end Utils

namespace Lib

theorem validateElems_ok_of_all : ∀ {xs : List PyVal},
    xs.all Utils.isMsgDictB = true → Lib.validateElems xs = .ok () := by
  intro xs
  induction xs with
  | nil => intro _; rfl
  | cons m rest ih =>
      intro h
      simp only [List.all_cons, Bool.and_eq_true] at h
      obtain ⟨kvs, rfl⟩ := (Utils.isMsgDictB_props h.1).2.2
      have hrole : (dictGet kvs "role").isSome = true := by
        simpa [Utils.isMsgDictB] using h.1
      simp [Lib.validateElems, pyContains, hrole, ih h.2]

theorem validate_thread_ok {t : PyVal} (h : isValidThreadB t = true) :
    Lib.validate_thread_of_messages t = .ok t := by
  cases t with
  | list xs =>
      have hxs : xs.all Utils.isMsgDictB = true := by
        simpa [isValidThreadB] using h
      simp [Lib.validate_thread_of_messages, pyIter, validateElems_ok_of_all hxs]
  | str s => simp [isValidThreadB] at h
  | int n => simp [isValidThreadB] at h
  | dict kvs => simp [isValidThreadB] at h

theorem validateThreads_ok : ∀ {ts : List PyVal},
    ts.all isValidThreadB = true → Lib.validateThreads ts = .ok ts := by
  intro ts
  induction ts with
  | nil => intro _; rfl
  | cons t rest ih =>
      intro h
      simp only [List.all_cons, Bool.and_eq_true] at h
      simp [Lib.validateThreads, validate_thread_ok h.1, ih h.2]

end Lib

/-- C7: for every string `s`, both formatters return a one-element thread
holding a freshly constructed user-role message whose content is `s`. -/
theorem format_messages_string_to_user_thread (s : String) :
    Utils.format_messages (.str s)
      = .ok (.list [.dict [("role", .str "user"), ("content", .str s)]]) ∧
    Lib.format_messages (.str s)
      = .ok (.list [.dict [("role", .str "user"), ("content", .str s)]]) :=
  ⟨rfl, rfl⟩

/-- C9: the flat list `["role play"]`, whose single element is a string and
not a mapping, passes `format_messages` in `src/messages.py` unchanged,
because `"role" not in message` is a substring test on strings and
`"role"` is a substring of `"role play"`. -/
theorem lib_format_messages_membership_loophole :
    Lib.format_messages (.list [.str "role play"])
      = .ok (.list [.str "role play"]) ∧
    isDictV (.str "role play") = false :=
  ⟨by decide, rfl⟩

/-- C3 counterexample: classification is not exception-free — on the empty
list `determine_if_batch` evaluates `messages[0]` and raises `IndexError`
instead of returning `False`. -/
theorem determine_if_batch_empty_raises :
    Utils.determine_if_batch (.list []) = .error .indexError := rfl

/-- C3 amended: classification inspects only shape and returns without
exception on strings, dicts, ints, and nonempty lists (where the answer is
`isinstance(messages[0], List)`); but on the empty list both
`determine_if_batch` and the two `format_messages` raise `IndexError`,
so the empty sequence is not classified as a flat empty Thread. -/
theorem classification_total_except_empty :
    (∀ s, Utils.determine_if_batch (.str s) = .ok false) ∧
    (∀ kvs, Utils.determine_if_batch (.dict kvs) = .ok false) ∧
    (∀ n : Int, Utils.determine_if_batch (.int n) = .ok false) ∧
    (∀ (x : PyVal) (xs : List PyVal),
      Utils.determine_if_batch (.list (x :: xs)) = .ok (isListV x)) ∧
    Utils.determine_if_batch (.list []) = .error .indexError ∧
    Utils.format_messages (.list []) = .error .indexError ∧
    Lib.format_messages (.list []) = .error .indexError :=
  ⟨fun _ => rfl, fun _ => rfl, fun _ => rfl, fun _ _ => rfl, rfl, rfl, rfl⟩

/-- C4 counterexample: in `src/messages.py`, an integer input makes
`format_messages` evaluate `"role" in 5`, which raises `TypeError` — not
the formatter's `InvalidMessagesFormatError` (`ValueError`). -/
theorem lib_format_messages_int_raises_typeerror :
    Lib.format_messages (.int 5) = .error .typeError := rfl

/-- C4 amended: for every input that is neither a string, nor a mapping
with a `role` key, nor a sequence, the nanograph formatter raises the
format `ValueError`; the `src/messages.py` formatter raises the format
`ValueError` for mappings without `role` but raises `TypeError` for
values (such as integers) that do not support membership testing. -/
theorem format_messages_invalid_shape_errors (v : PyVal)
    (h : (∃ kvs, v = .dict kvs ∧ (dictGet kvs "role").isSome = false) ∨
         (∃ n : Int, v = .int n)) :
    Utils.format_messages v = .error (.valueError "Invalid messages format") ∧
    ((∃ kvs, v = PyVal.dict kvs) →
      Lib.format_messages v
        = .error (.valueError
            "messages must be a string, message, or a list of messages")) ∧
    ((∃ n : Int, v = PyVal.int n) →
      Lib.format_messages v = .error .typeError) := by
  rcases h with ⟨kvs, rfl, hrole⟩ | ⟨n, rfl⟩
  · refine ⟨?_, fun _ => ?_, ?_⟩
    · simp [Utils.format_messages, Utils.determine_if_batch, hrole]
    · simp [Lib.format_messages, pyContains, hrole]
    · rintro ⟨n, hn⟩
      exact absurd hn (by simp)
  · refine ⟨rfl, ?_, fun _ => rfl⟩
    rintro ⟨kvs, hk⟩
    exact absurd hk (by simp)

/-- Witness for C4 amended at the mapping `{"content": "x"}` (no `role`). -/
theorem format_messages_invalid_shape_errors_witness :
    ((∃ kvs, (PyVal.dict [("content", PyVal.str "x")]) = PyVal.dict kvs ∧
        (dictGet kvs "role").isSome = false) ∨
      (∃ n : Int, (PyVal.dict [("content", PyVal.str "x")]) = PyVal.int n)) ∧
    (Utils.format_messages (.dict [("content", .str "x")])
        = .error (.valueError "Invalid messages format") ∧
      ((∃ kvs, (PyVal.dict [("content", PyVal.str "x")]) = PyVal.dict kvs) →
        Lib.format_messages (.dict [("content", .str "x")])
          = .error (.valueError
              "messages must be a string, message, or a list of messages")) ∧
      ((∃ n : Int, (PyVal.dict [("content", PyVal.str "x")]) = PyVal.int n) →
        Lib.format_messages (.dict [("content", .str "x")])
          = .error .typeError)) :=
  ⟨Or.inl ⟨_, rfl, rfl⟩,
    format_messages_invalid_shape_errors _ (Or.inl ⟨_, rfl, rfl⟩)⟩

/-- C5 counterexample: the empty list satisfies the claim's validity
condition vacuously, yet both formatters raise `IndexError` on it instead
of returning it unchanged. -/
theorem format_messages_empty_thread_raises :
    Utils.format_messages (.list []) = .error .indexError ∧
    Lib.format_messages (.list []) = .error .indexError :=
  ⟨rfl, rfl⟩

/-- C5 amended: both formatters are the identity on nonempty canonical
input — a nonempty flat thread of role-carrying dicts is returned
unchanged, and a nonempty batch of such threads is returned with the same
ordering of threads and messages. -/
theorem format_messages_identity_on_nonempty :
    (∀ (m : PyVal) (ms : List PyVal), (m :: ms).all Utils.isMsgDictB = true →
      Utils.format_messages (.list (m :: ms)) = .ok (.list (m :: ms)) ∧
      Lib.format_messages (.list (m :: ms)) = .ok (.list (m :: ms))) ∧
    (∀ (t : PyVal) (ts : List PyVal), (t :: ts).all isValidThreadB = true →
      Utils.format_messages (.list (t :: ts)) = .ok (.list (t :: ts)) ∧
      Lib.format_messages (.list (t :: ts)) = .ok (.list (t :: ts))) := by
  constructor
  · intro m ms h
    have hall := h
    simp only [List.all_cons, Bool.and_eq_true] at h
    obtain ⟨hlist, _, kvs, rfl⟩ := Utils.isMsgDictB_props h.1
    constructor
    · simp [Utils.format_messages, Utils.determine_if_batch, isListV,
        Utils.validateDictElems_ok_of_all hall]
    · have hv : isValidThreadB (.list (PyVal.dict kvs :: ms)) = true := by
        simpa [isValidThreadB] using hall
      simpa [Lib.format_messages, isListV] using Lib.validate_thread_ok hv
  · intro t ts h
    have hall := h
    simp only [List.all_cons, Bool.and_eq_true] at h
    obtain ⟨ht, hts⟩ := h
    cases t with
    | list xs =>
        constructor
        · simp [Utils.format_messages, Utils.determine_if_batch, pyIter,
            isListV, Utils.validateBatch_ok_of_all hall]
        · simp [Lib.format_messages, isListV, Lib.validateThreads_ok hall]
    | str s => simp [isValidThreadB] at ht
    | int n => simp [isValidThreadB] at ht
    | dict kvs => simp [isValidThreadB] at ht

/-- Witness for C5 amended at the one-message thread
`[{"role": "user", "content": "hi"}]`. -/
theorem format_messages_identity_on_nonempty_witness :
    ([PyVal.dict [("role", PyVal.str "user"), ("content", PyVal.str "hi")]].all
        Utils.isMsgDictB = true) ∧
    (Utils.format_messages
        (.list [.dict [("role", .str "user"), ("content", .str "hi")]])
      = .ok (.list [.dict [("role", .str "user"), ("content", .str "hi")]]) ∧
      Lib.format_messages
        (.list [.dict [("role", .str "user"), ("content", .str "hi")]])
      = .ok (.list [.dict [("role", .str "user"), ("content", .str "hi")]])) :=
  ⟨by decide,
    format_messages_identity_on_nonempty.1
      (.dict [("role", .str "user"), ("content", .str "hi")]) [] (by decide)⟩

namespace Lib

/-- The accumulator scan of `_add_context_to_sequence` computes the
spec-side last-system index: starting at counter `i` with accumulator
`acc`, it returns `i + j` when the sublist has its last system message at
`j`, and `acc` when it has none. -/
theorem lastSysScan_eq : ∀ (msgs : List PyVal) (i : Nat) (acc : Option Nat),
    msgs.all hasRoleB = true →
    Lib.lastSysScan i acc msgs
      = .ok (match lastSysSpec msgs with
             | some j => some (i + j)
             | none => acc) := by
  intro msgs
  induction msgs with
  | nil => intro i acc _; rfl
  | cons m rest ih =>
      intro i acc h
      simp only [List.all_cons, Bool.and_eq_true] at h
      obtain ⟨r, hg⟩ := Lib.exists_role_of_hasRoleB h.1
      have hsys : isSystemB m = decide (r = PyVal.str "system") := by
        simp [isSystemB, hg]
      by_cases hr : r = PyVal.str "system"
      · cases hspec : lastSysSpec rest with
        | some j =>
            have := ih (i + 1) (some i) h.2
            rw [hspec] at this
            simp only [Lib.lastSysScan, hg, hr, if_pos, lastSysSpec, hspec, this]
            have harith : i + 1 + j = i + (j + 1) := by omega
            simp [harith]
        | none =>
            have := ih (i + 1) (some i) h.2
            rw [hspec] at this
            simp only [Lib.lastSysScan, hg, hr, if_pos, lastSysSpec, hspec, this]
            simp [hsys, hr]
      · cases hspec : lastSysSpec rest with
        | some j =>
            have := ih (i + 1) acc h.2
            rw [hspec] at this
            simp only [Lib.lastSysScan, hg, hr, if_neg, if_false, lastSysSpec,
              hspec, this]
            have harith : i + 1 + j = i + (j + 1) := by omega
            simp [harith]
        | none =>
            have := ih (i + 1) acc h.2
            rw [hspec] at this
            simp only [Lib.lastSysScan, hg, hr, if_neg, if_false, lastSysSpec,
              hspec, this]
            simp [hsys, hr]

end Lib

theorem lastSysSpec_none_nosys : ∀ {msgs : List PyVal},
    lastSysSpec msgs = none → msgs.all (fun x => !isSystemB x) = true := by
  intro msgs
  induction msgs with
  | nil => intro _; rfl
  | cons m rest ih =>
      intro h
      cases hspec : lastSysSpec rest with
      | some j => simp [lastSysSpec, hspec] at h
      | none =>
          by_cases hm : isSystemB m = true
          · simp [lastSysSpec, hspec, hm] at h
          · simp only [Bool.not_eq_true] at hm
            simp [hm, ih hspec]

theorem getD_mem {l : List PyVal} {k : Nat} (h : k < l.length) :
    l.getD k (.int 0) ∈ l := by
  rw [List.getD_eq_getElem _ _ h]
  exact List.getElem_mem h

theorem lastSysSpec_some_spec : ∀ {msgs : List PyVal} {k : Nat},
    lastSysSpec msgs = some k →
    k < msgs.length ∧ isSystemB (msgs.getD k (.int 0)) = true ∧
    ∀ j, k < j → j < msgs.length → isSystemB (msgs.getD j (.int 0)) = false := by
  intro msgs
  induction msgs with
  | nil => intro k h; simp [lastSysSpec] at h
  | cons m rest ih =>
      intro k h
      cases hspec : lastSysSpec rest with
      | some j0 =>
          rw [lastSysSpec, hspec] at h
          have hk : k = j0 + 1 := by simpa using h.symm
          subst hk
          obtain ⟨hlt, hsys, hafter⟩ := ih hspec
          refine ⟨by simpa using Nat.succ_lt_succ hlt, by simpa using hsys, ?_⟩
          intro j hj hjlen
          cases j with
          | zero => omega
          | succ j' =>
              have : isSystemB (rest.getD j' (.int 0)) = false :=
                hafter j' (by omega) (by simpa using Nat.lt_of_succ_lt_succ hjlen)
              simpa using this
      | none =>
          rw [lastSysSpec, hspec] at h
          by_cases hm : isSystemB m = true
          · rw [if_pos hm] at h
            have hk : k = 0 := by simpa using h.symm
            subst hk
            refine ⟨by simp, by simpa using hm, ?_⟩
            intro j hj hjlen
            cases j with
            | zero => omega
            | succ j' =>
                have hj'len : j' < rest.length := by
                  simpa using Nat.lt_of_succ_lt_succ hjlen
                have hmem := getD_mem hj'len
                have := List.all_eq_true.mp (lastSysSpec_none_nosys hspec)
                  _ hmem
                simpa using this
          · rw [if_neg hm] at h
            exact absurd h (by simp)

theorem strContent_exists {m : PyVal} (h : hasStrContentB m = true) :
    ∃ c, pyGetItem m "content" = .ok (.str c) := by
  unfold hasStrContentB at h
  cases hg : pyGetItem m "content" with
  | error e => rw [hg] at h; simp at h
  | ok c =>
      cases c with
      | str s => exact ⟨s, rfl⟩
      | int n => rw [hg] at h; simp at h
      | dict kvs => rw [hg] at h; simp at h
      | list xs => rw [hg] at h; simp at h

namespace Lib

theorem augmentContent_str {m : PyVal} {c : String} (ctx : String)
    (hd : isDictV m = true)
    (hc : pyGetItem m "content" = .ok (.str c)) :
    Lib.augmentContent m ctx = .ok (withContent m (c ++ "\n\n" ++ ctx)) := by
  cases m with
  | dict kvs => simp [Lib.augmentContent, hc, withContent]
  | str s => simp [isDictV] at hd
  | int n => simp [isDictV] at hd
  | list xs => simp [isDictV] at hd

theorem get?_eq_getD {l : List PyVal} {k : Nat} (h : k < l.length) :
    l.get? k = some (l.getD k (.int 0)) := by
  rw [List.get?_eq_getElem?, List.getElem?_eq_getElem h,
    List.getD_eq_getElem _ _ h]

end Lib


/-- C2: on a flat thread of role-carrying mappings whose last system
message (if any) has string content, `add_context_to_messages` appends
`"\n\n" + context` to the content of the last (highest-index) system
message, leaving every other message untouched; with no system message it
inserts a fresh system message with `content = context` at index 0 (the
empty thread is the no-system case, yielding exactly the new message). -/
theorem add_context_flat_thread_spec (msgs : List PyVal) (ctx : String)
    (hval : msgs.all Utils.isMsgDictB = true)
    (hcontent : (match lastSysSpec msgs with
      | some k => hasStrContentB (msgs.getD k (.int 0))
      | none => true) = true) :
    (lastSysSpec msgs = none →
      Lib.add_context_to_messages (.list msgs) ctx
        = .ok (.list (Lib.construct_message (.str ctx) "system" :: msgs))) ∧
    (∀ k, lastSysSpec msgs = some k →
      k < msgs.length ∧ isSystemB (msgs.getD k (.int 0)) = true ∧
      (∀ j, k < j → j < msgs.length →
        isSystemB (msgs.getD j (.int 0)) = false) ∧
      ∃ c, pyGetItem (msgs.getD k (.int 0)) "content" = .ok (.str c) ∧
        Lib.add_context_to_messages (.list msgs) ctx
          = .ok (.list (msgs.set k
              (withContent (msgs.getD k (.int 0)) (c ++ "\n\n" ++ ctx))))) := by
  have hroles : msgs.all hasRoleB = true := by
    rw [List.all_eq_true] at hval ⊢
    intro x hx
    exact (Utils.isMsgDictB_props (hval x hx)).2.1
  cases msgs with
  | nil =>
      refine ⟨fun _ => rfl, ?_⟩
      intro k hk
      simp [lastSysSpec] at hk
  | cons m rest =>
      have hmd : Utils.isMsgDictB m = true := List.all_eq_true.mp hval m (by simp)
      have hm : isListV m = false := (Utils.isMsgDictB_props hmd).1
      have hscan := Lib.lastSysScan_eq (m :: rest) 0 none hroles
      constructor
      · intro hnone
        rw [hnone] at hscan
        simp [Lib.add_context_to_messages, pyTruthy, pySubscriptZero, hm,
          Lib.add_context_to_sequence, pyIter, hscan]
      · intro k hk
        rw [hk] at hscan
        simp only [Nat.zero_add] at hscan
        obtain ⟨hlt, hsys, hafter⟩ := lastSysSpec_some_spec hk
        have hmemk := getD_mem hlt
        have hdictk : isDictV ((m :: rest).getD k (.int 0)) = true := by
          obtain ⟨kvs, hkvs⟩ := (Utils.isMsgDictB_props
            (List.all_eq_true.mp hval _ hmemk)).2.2
          rw [hkvs]
          rfl
        have hcontent' : hasStrContentB ((m :: rest).getD k (.int 0)) = true := by
          rw [hk] at hcontent
          exact hcontent
        obtain ⟨c, hc⟩ := strContent_exists hcontent'
        refine ⟨hlt, hsys, hafter, c, hc, ?_⟩
        have haug := Lib.augmentContent_str ctx hdictk hc
        have hget : (m :: rest)[k]? = some ((m :: rest).getD k (.int 0)) := by
          rw [List.getElem?_eq_getElem hlt, List.getD_eq_getElem _ _ hlt]
        generalize hy : (m :: rest).getD k (.int 0) = y at haug hget ⊢
        simp [Lib.add_context_to_messages, pyTruthy, pySubscriptZero, hm,
          Lib.add_context_to_sequence, pyIter, hscan, hget, haug, Lib.writeBack]

/-- Witness for C2 at the thread
`[{"role": "system", "content": "base"}, {"role": "user", "content": "hi"}]`
with context `"ctx"`. -/
theorem add_context_flat_thread_spec_witness :
    (([Lib.construct_message (.str "base") "system",
       Lib.construct_message (.str "hi") "user"].all Utils.isMsgDictB = true) ∧
     ((match lastSysSpec [Lib.construct_message (.str "base") "system",
          Lib.construct_message (.str "hi") "user"] with
       | some k => hasStrContentB
           ([Lib.construct_message (.str "base") "system",
             Lib.construct_message (.str "hi") "user"].getD k (.int 0))
       | none => true) = true)) ∧
    ((lastSysSpec [Lib.construct_message (.str "base") "system",
        Lib.construct_message (.str "hi") "user"] = none →
      Lib.add_context_to_messages
          (.list [Lib.construct_message (.str "base") "system",
                  Lib.construct_message (.str "hi") "user"]) "ctx"
        = .ok (.list (Lib.construct_message (.str "ctx") "system"
            :: [Lib.construct_message (.str "base") "system",
                Lib.construct_message (.str "hi") "user"]))) ∧
     (∀ k, lastSysSpec [Lib.construct_message (.str "base") "system",
          Lib.construct_message (.str "hi") "user"] = some k →
       k < [Lib.construct_message (.str "base") "system",
            Lib.construct_message (.str "hi") "user"].length ∧
       isSystemB ([Lib.construct_message (.str "base") "system",
            Lib.construct_message (.str "hi") "user"].getD k (.int 0)) = true ∧
       (∀ j, k < j → j < [Lib.construct_message (.str "base") "system",
            Lib.construct_message (.str "hi") "user"].length →
         isSystemB ([Lib.construct_message (.str "base") "system",
              Lib.construct_message (.str "hi") "user"].getD j (.int 0))
           = false) ∧
       ∃ c, pyGetItem ([Lib.construct_message (.str "base") "system",
            Lib.construct_message (.str "hi") "user"].getD k (.int 0))
              "content" = .ok (.str c) ∧
         Lib.add_context_to_messages
             (.list [Lib.construct_message (.str "base") "system",
                     Lib.construct_message (.str "hi") "user"]) "ctx"
           = .ok (.list ([Lib.construct_message (.str "base") "system",
               Lib.construct_message (.str "hi") "user"].set k
                 (withContent ([Lib.construct_message (.str "base") "system",
                     Lib.construct_message (.str "hi") "user"].getD k (.int 0))
                   (c ++ "\n\n" ++ "ctx")))))) :=
  ⟨⟨by decide, by decide⟩,
    add_context_flat_thread_spec _ "ctx" (by decide) (by decide)⟩

namespace Utils

theorem validateDictElems_fail_fast : ∀ {good : List PyVal} (bad : PyVal)
    (rest : List PyVal), good.all Utils.isMsgDictB = true →
    Utils.isMsgDictB bad = false →
    Utils.validateDictElems (good ++ bad :: rest)
      = .error (.valueError "Invalid message format") := by
  intro good
  induction good with
  | nil =>
      intro bad rest _ hb
      simp [Utils.validateDictElems, hb]
  | cons m g ih =>
      intro bad rest hg hb
      simp only [List.all_cons, Bool.and_eq_true] at hg
      simp [Utils.validateDictElems, hg.1, ih bad rest hg.2 hb]

end Utils

/-- State characterization of the batch context-append: the threads before
the first failing one end up in their mutated post-call form, the failing
thread and all later ones stay untouched; the call succeeds exactly when
no thread fails, and otherwise reports the first failing thread's error. -/
theorem addCtxBatchState_char : ∀ (ts : List PyVal) (ctx : String),
    (Lib.addCtxBatchState ts ctx).2
      = (ts.take (firstFail ts ctx)).map (postThreadView ctx)
        ++ ts.drop (firstFail ts ctx) ∧
    (firstFail ts ctx = ts.length → (Lib.addCtxBatchState ts ctx).1 = .ok ()) ∧
    (firstFail ts ctx < ts.length →
      ∃ e, Lib.add_context_to_sequence (ts.getD (firstFail ts ctx) (.int 0)) ctx
          = .error e ∧
        (Lib.addCtxBatchState ts ctx).1 = .error e) := by
  intro ts
  induction ts with
  | nil =>
      intro ctx
      exact ⟨rfl, fun _ => rfl, fun h => absurd h (by simp)⟩
  | cons t rest ih =>
      intro ctx
      cases hseq : Lib.add_context_to_sequence t ctx with
      | error e =>
          refine ⟨?_, ?_, ?_⟩
          · simp [Lib.addCtxBatchState, hseq, firstFail]
          · intro hlen
            rw [firstFail, hseq] at hlen
            simp at hlen
          · intro _
            refine ⟨e, ?_, ?_⟩
            · simp [firstFail, hseq]
            · simp [Lib.addCtxBatchState, hseq, firstFail]
      | ok r =>
          obtain ⟨ih1, ih2, ih3⟩ := ih ctx
          have hff : firstFail (t :: rest) ctx = firstFail rest ctx + 1 := by
            simp [firstFail, hseq]
          have hpv : postThreadView ctx t = r.2 := by
            simp [postThreadView, hseq]
          refine ⟨?_, ?_, ?_⟩
          · simp [Lib.addCtxBatchState, hseq, hff, hpv, ih1]
          · intro hlen
            rw [hff] at hlen
            simp only [List.length_cons, Nat.add_right_cancel_iff] at hlen
            simp [Lib.addCtxBatchState, hseq, ih2 hlen]
          · intro hlt
            rw [hff] at hlt
            simp only [List.length_cons] at hlt
            obtain ⟨e, he1, he2⟩ := ih3 (by omega)
            refine ⟨e, ?_, ?_⟩
            · simpa [hff] using he1
            · simp [Lib.addCtxBatchState, hseq, he2]

/-- C8 counterexample: the batch
`[[{"role": "system", "content": "a"}], [{"content": "x"}]]` with context
`"c"` makes `add_context_to_messages` raise `KeyError("role")` on the
second thread — but the first thread's system message has already been
mutated in place to content `"a\n\nc"`, so the input is not left
unchanged on failure. -/
theorem add_context_batch_partial_mutation :
    Lib.add_context_to_messages
        (.list [.list [Lib.construct_message (.str "a") "system"],
                .list [.dict [("content", .str "x")]]]) "c"
      = .error (.keyError "role") ∧
    Lib.addCtxBatchState
        [.list [Lib.construct_message (.str "a") "system"],
         .list [.dict [("content", .str "x")]]] "c"
      = (.error (.keyError "role"),
         [.list [Lib.construct_message (.str "a\n\nc") "system"],
          .list [.dict [("content", .str "x")]]]) ∧
    ([.list [Lib.construct_message (.str "a\n\nc") "system"],
      .list [.dict [("content", .str "x")]]] : List PyVal)
      ≠ [.list [Lib.construct_message (.str "a") "system"],
         .list [.dict [("content", .str "x")]]] :=
  ⟨by decide, by decide, by decide⟩

/-- C8 amended: validation is fail-fast — the first invalid element aborts
the whole call — and validation itself never modifies its input; but the
batch context append is not atomic: it processes threads left to right,
mutating each thread's last system message in place, so when a later
thread raises, the error is the first failing thread's error while every
earlier thread keeps its mutation and the failing and later threads stay
unchanged. -/
theorem normalization_fail_fast_batch_mutation (good : List PyVal)
    (bad : PyVal) (rest : List PyVal) (ts : List PyVal) (ctx : String)
    (hg : good.all Utils.isMsgDictB = true)
    (hb : Utils.isMsgDictB bad = false) :
    Utils.validateDictElems (good ++ bad :: rest)
      = .error (.valueError "Invalid message format") ∧
    (Lib.addCtxBatchState ts ctx).2
      = (ts.take (firstFail ts ctx)).map (postThreadView ctx)
        ++ ts.drop (firstFail ts ctx) ∧
    (firstFail ts ctx = ts.length → (Lib.addCtxBatchState ts ctx).1 = .ok ()) ∧
    (firstFail ts ctx < ts.length →
      ∃ e, Lib.add_context_to_sequence (ts.getD (firstFail ts ctx) (.int 0)) ctx
          = .error e ∧
        (Lib.addCtxBatchState ts ctx).1 = .error e) :=
  ⟨Utils.validateDictElems_fail_fast bad rest hg hb,
    (addCtxBatchState_char ts ctx).1,
    (addCtxBatchState_char ts ctx).2.1,
    (addCtxBatchState_char ts ctx).2.2⟩

/-- Witness for C8 amended: one valid element before an element without
`role`, and the two-thread batch whose second thread fails. -/
theorem normalization_fail_fast_batch_mutation_witness :
    (([PyVal.dict [("role", PyVal.str "user"), ("content", PyVal.str "hi")]].all
        Utils.isMsgDictB = true) ∧
      Utils.isMsgDictB (.dict [("content", .str "x")]) = false) ∧
    (Utils.validateDictElems
        ([PyVal.dict [("role", PyVal.str "user"), ("content", PyVal.str "hi")]]
          ++ PyVal.dict [("content", PyVal.str "x")] :: [])
      = .error (.valueError "Invalid message format") ∧
    (Lib.addCtxBatchState
        [.list [Lib.construct_message (.str "a") "system"],
         .list [.dict [("content", .str "x")]]] "c").2
      = (([.list [Lib.construct_message (.str "a") "system"],
           .list [.dict [("content", .str "x")]]] : List PyVal).take
            (firstFail [.list [Lib.construct_message (.str "a") "system"],
              .list [.dict [("content", .str "x")]]] "c")).map
            (postThreadView "c")
        ++ ([.list [Lib.construct_message (.str "a") "system"],
             .list [.dict [("content", .str "x")]]] : List PyVal).drop
            (firstFail [.list [Lib.construct_message (.str "a") "system"],
              .list [.dict [("content", .str "x")]]] "c") ∧
    (firstFail [.list [Lib.construct_message (.str "a") "system"],
        .list [.dict [("content", .str "x")]]] "c"
      = ([.list [Lib.construct_message (.str "a") "system"],
          .list [.dict [("content", .str "x")]]] : List PyVal).length →
      (Lib.addCtxBatchState
        [.list [Lib.construct_message (.str "a") "system"],
         .list [.dict [("content", .str "x")]]] "c").1 = .ok ()) ∧
    (firstFail [.list [Lib.construct_message (.str "a") "system"],
        .list [.dict [("content", .str "x")]]] "c"
      < ([.list [Lib.construct_message (.str "a") "system"],
          .list [.dict [("content", .str "x")]]] : List PyVal).length →
      ∃ e, Lib.add_context_to_sequence
          (([.list [Lib.construct_message (.str "a") "system"],
             .list [.dict [("content", .str "x")]]] : List PyVal).getD
            (firstFail [.list [Lib.construct_message (.str "a") "system"],
              .list [.dict [("content", .str "x")]]] "c") (.int 0)) "c"
          = .error e ∧
        (Lib.addCtxBatchState
          [.list [Lib.construct_message (.str "a") "system"],
           .list [.dict [("content", .str "x")]]] "c").1 = .error e)) :=
  ⟨⟨by decide, by decide⟩,
    normalization_fail_fast_batch_mutation
      [PyVal.dict [("role", PyVal.str "user"), ("content", PyVal.str "hi")]]
      (.dict [("content", .str "x")]) []
      [.list [Lib.construct_message (.str "a") "system"],
       .list [.dict [("content", .str "x")]]] "c" (by decide) (by decide)⟩
